import Mathlib

/-!
Verification development for the go-yelp client library.

The embedding models `yelp/yelp.go` and `yelp/business.go` as pure Lean
functions.  External effects (the HTTP transport supplied by the caller,
the JSON decoder of the standard library, the clock, building a request)
are parameters gathered in an `Env` record; the mutable client state
(the credential store) together with an event trace of the network calls
made is threaded explicitly as a `St` record.  Repository files that are
not part of the sources given here (the credential store and the search
options) are modelled from the specification and marked as such.
-/

namespace Yelp

/-- apiHost is the base URL for the Yelp API (yelp.go line 16). -/
def apiHost : String := "https://api.yelp.com"

/-- searchPath is the path to search for businesses (yelp.go line 19). -/
def searchPath : String := "/v3/businesses/search"

/-- businessPathBase models businessPath = "/v3/businesses/%s" (yelp.go line 22):
fmt.Sprintf substitutes the id for the %s verb, so the built path is this
base followed by the id. -/
def businessPathBase : String := "/v3/businesses/"

/-- tokenPath is the path to fetch the access token of the bearer (yelp.go line 25). -/
def tokenPath : String := "/oauth2/token"

/-- Category describes a business (business.go). -/
structure Category where
  alias' : String
  title : String
deriving Repr, DecidableEq, Inhabited

/-- Modelled from the spec: coordinates (lat, long).  The defining file is not
among the given sources.  The float64 components carry no arithmetic in any
claim, so they are represented as integers. -/
structure Coordinates where
  latitude : Int
  longitude : Int
deriving Repr, DecidableEq, Inhabited

/-- Modelled from the spec: location (postal address structure).  The defining
file is not among the given sources; only its zero value matters to the claims. -/
structure Location where
  address1 : String
  city : String
  zipCode : String
  country : String
  state : String
deriving Repr, DecidableEq, Inhabited

/-- Business defines a business returned by the Yelp API (business.go).
float64 fields (Rating, Distance) carry no arithmetic in any claim and are
represented as integers. -/
structure Business where
  id : String
  name : String
  imageURL : String
  isClaimed : Bool
  isClosed : Bool
  url : String
  price : String
  rating : Int
  reviewCount : Int
  phone : String
  photos : List String
  categories : List Category
  coodinates : Coordinates
  location : Location
  transactions : List String
  displayPhone : String
  distance : Int
deriving Repr, DecidableEq, Inhabited

/-- Modelled from the spec: SearchResults is an ordered sequence of Business
plus a total-count field, mirroring the response envelope of the API.  The
defining file is not among the given sources. -/
structure SearchResults where
  total : Int
  businesses : List Business
deriving Repr, DecidableEq, Inhabited

/-- Modelled from the spec: Credentials holds the client identifier, the
client secret, the cached access token (empty until fetched) and the expiry
timestamp.  The defining file is not among the given sources.  Time is an
integer count of seconds. -/
structure Credentials where
  clientID : String
  clientSecret : String
  accessToken : String
  expiryDate : Int
deriving Repr, DecidableEq, Inhabited

/-- Modelled from the spec: IsValid of the credential store is true iff the
access token is set (non-empty) and the current time is strictly before the
expiry. -/
def credIsValid (now : Int) (c : Credentials) : Bool :=
  c.accessToken != "" && decide (now < c.expiryDate)

/-- Modelled from the spec: URLValues of the credential store produces the
form pairs for the token exchange: grant type, client id, client secret. -/
def credURLValues (c : Credentials) : List (String × String) :=
  [("client_id", c.clientID), ("client_secret", c.clientSecret),
   ("grant_type", "client_credentials")]

/-- Modelled from the spec: SearchOptions is a set of named query parameters
with a validity predicate and a serialization to URL query form.  The defining
file is not among the given sources; the parameters beyond term, location,
coordinates and limit are analogous and omitted. -/
structure SearchOptions where
  term : String
  location : String
  coordinates : Option Coordinates
  limit : Option Int
deriving Repr, DecidableEq, Inhabited

/-- Modelled from the spec: IsValid of SearchOptions requires at minimum one
of a location string or coordinates to be present. -/
def searchOptionsIsValid (so : SearchOptions) : Bool :=
  so.location != "" || so.coordinates.isSome

/-- Modelled from the spec: serialization of SearchOptions to URL query pairs. -/
def searchOptionsURLValues (so : SearchOptions) : List (String × String) :=
  (if so.term != "" then [("term", so.term)] else []) ++
  (if so.location != "" then [("location", so.location)] else []) ++
  (match so.coordinates with
   | some c => [("latitude", toString c.latitude), ("longitude", toString c.longitude)]
   | none => []) ++
  (match so.limit with
   | some n => [("limit", toString n)]
   | none => [])

/-- Uppercase hexadecimal digit for n < 16, as used by the percent encoding
of net/url. -/
def hexDigit (n : Nat) : Char :=
  if n < 10 then Char.ofNat (48 + n) else Char.ofNat (55 + n)

/-- Percent-escape of one byte following url.QueryEscape: letters, digits and
the marks - _ . ~ stay, a space becomes +, everything else becomes %XX. -/
def escapeByte (n : Nat) : String :=
  if (65 ≤ n ∧ n ≤ 90) ∨ (97 ≤ n ∧ n ≤ 122) ∨ (48 ≤ n ∧ n ≤ 57) ∨
      n = 45 ∨ n = 95 ∨ n = 46 ∨ n = 126 then
    String.singleton (Char.ofNat n)
  else if n = 32 then "+"
  else "%" ++ String.singleton (hexDigit (n / 16)) ++ String.singleton (hexDigit (n % 16))

/-- url.QueryEscape over the UTF-8 bytes of the string. -/
def queryEscape (s : String) : String :=
  String.join ((s.toUTF8.toList.map (fun b => escapeByte b.toNat)))

/-- Stable insertion of a pair into a key-sorted association list. -/
def insertSorted (p : String × String) : List (String × String) → List (String × String)
  | [] => [p]
  | q :: qs => if q.1 < p.1 then q :: insertSorted p qs else p :: q :: qs

/-- Sort an association list by key, as url.Values.Encode sorts its keys. -/
def sortByKey (l : List (String × String)) : List (String × String) :=
  l.foldr insertSorted []

/-- url.Values.Encode: keys sorted, each pair percent-escaped and joined
k=v with ampersands. -/
def encodeValues (vs : List (String × String)) : String :=
  String.intercalate "&"
    ((sortByKey vs).map (fun p => queryEscape p.1 ++ "=" ++ queryEscape p.2))

/-- An HTTP request as built by the client: method, url, headers, optional body. -/
structure Request where
  method : String
  url : String
  headers : List (String × String)
  body : Option String
deriving Repr, DecidableEq, Inhabited

/-- An HTTP response: numeric status code, status text, body text. -/
structure Response where
  statusCode : Nat
  status : String
  body : String
deriving Repr, DecidableEq, Inhabited

/-- Observable events of one run: a request sent, a response received (its
body opened), a response body closed, a line logged. -/
inductive Ev where
  | req (r : Request)
  | resp (r : Response)
  | closeBody
  | log (msg : String)
deriving Repr, DecidableEq

/-- The token response shape decoded by FetchToken (yelp.go lines 51-55). -/
structure TokenResp where
  accessToken : String
  tokenType : String
  expiresIn : Int
deriving Repr, DecidableEq, Inhabited

/-- The external world: the HTTP transport supplied at construction, the
result of closing a response body, the clock, request construction, and the
JSON decoder of the standard library for each target shape.  A decoder takes
the body and the current target value and returns the updated target value
(possibly partially populated on failure) and the optional decode error. -/
structure Env where
  transport : Request → Except String Response
  closeErr : Response → Option String
  now : Int
  newReqErr : String → String → Option String
  decodeToken : String → TokenResp → TokenResp × Option String
  decodeSearch : String → SearchResults → SearchResults × Option String
  decodeBusiness : String → Business → Business × Option String

/-- The client state threaded through a run: the credential store plus the
event trace accumulated so far. -/
structure St where
  creds : Credentials
  trace : List Ev

/-- Result of one HTTP helper call: new state, the (possibly updated) decode
target, the response if one was received, and the error if any. -/
structure HttpOut (α : Type) where
  st : St
  v : α
  resp : Option Response
  err : Option String

/-- Header.Set semantics: replace any pairs with the key, then append the
single new pair. -/
def setHeader (hs : List (String × String)) (k v : String) : List (String × String) :=
  (hs.filter (fun p => p.1 ≠ k)) ++ [(k, v)]

/-- Look up a header value by key. -/
def lookupHeader (hs : List (String × String)) (k : String) : Option String :=
  (hs.find? (fun p => p.1 = k)).map (fun p => p.2)

/-- The request http.Client.PostForm sends: a POST with the form values
encoded as the body. -/
def formRequest (url : String) (data : List (String × String)) : Request :=
  { method := "POST", url := url,
    headers := [("Content-Type", "application/x-www-form-urlencoded")],
    body := some (encodeValues data) }

/-- postForm (yelp.go lines 124-137): POST the form values, return the
transport error verbatim if any; otherwise decode the body into v, close the
body (logging and suppressing a close failure), and return the decode error. -/
def postForm {α : Type} (env : Env) (st : St) (url : String)
    (data : List (String × String))
    (decode : String → α → α × Option String) (v : α) : HttpOut α :=
  match env.transport (formRequest url data) with
  | Except.error e =>
    { st := { st with trace := st.trace ++ [Ev.req (formRequest url data)] },
      v := v, resp := none, err := some e }
  | Except.ok resp =>
    match decode resp.body v with
    | (v1, derr) =>
      let st3 : St :=
        match env.closeErr resp with
        | some ce =>
          { st with trace := st.trace ++
              [Ev.req (formRequest url data), Ev.resp resp, Ev.closeBody, Ev.log ce] }
        | none =>
          { st with trace := st.trace ++
              [Ev.req (formRequest url data), Ev.resp resp, Ev.closeBody] }
      { st := st3, v := v1, resp := some resp, err := derr }

/-- The request postForm sends for the token exchange of the given credentials. -/
def tokenRequest (creds : Credentials) : Request :=
  formRequest (apiHost ++ tokenPath) (credURLValues creds)

/-- FetchToken (yelp.go lines 50-64): POST the credentials as a form to the
token endpoint; on failure return the error with the store untouched; on
success store the decoded access token and the absolute expiry now plus
expires_in seconds. -/
def FetchToken (env : Env) (st : St) : St × Option String :=
  let out := postForm env st (apiHost ++ tokenPath) (credURLValues st.creds)
      env.decodeToken { accessToken := "", tokenType := "", expiresIn := 0 }
  match out.err with
  | some e => (out.st, some e)
  | none =>
    ({ out.st with creds := { out.st.creds with
         accessToken := out.v.accessToken,
         expiryDate := env.now + out.v.expiresIn } }, none)

/-- The request authedDo builds (yelp.go lines 97-105): caller headers set
first, then the Authorization header overwritten with the bearer token. -/
def mkAuthedRequest (method url : String) (body : Option String)
    (headers : List (String × String)) (token : String) : Request :=
  { method := method, url := url,
    headers := setHeader (headers.foldl (fun hs kv => setHeader hs kv.1 kv.2) [])
        "Authorization" ("Bearer " ++ token),
    body := body }

/-- The request execution half of authedDo (yelp.go lines 97-119): build the
request, execute it, return the transport error if any; on a non-200 status
close the body and return the wrapped status error without decoding; on 200
decode into v, close the body (close failure discarded, not logged) and
return the decode error. -/
def authedDoReq {α : Type} (env : Env) (st : St) (method url : String)
    (body : Option String) (headers : List (String × String))
    (decode : String → α → α × Option String) (v : α) : HttpOut α :=
  match env.newReqErr method url with
  | some e => { st := st, v := v, resp := none, err := some e }
  | none =>
    match env.transport (mkAuthedRequest method url body headers st.creds.accessToken) with
    | Except.error e =>
      { st := { st with trace := st.trace ++
            [Ev.req (mkAuthedRequest method url body headers st.creds.accessToken)] },
        v := v, resp := none, err := some e }
    | Except.ok resp =>
      if resp.statusCode ≠ 200 then
        { st := { st with trace := st.trace ++
              [Ev.req (mkAuthedRequest method url body headers st.creds.accessToken),
               Ev.resp resp, Ev.closeBody] },
          v := v, resp := some resp,
          err := some ("Yelp request failed with status " ++ resp.status) }
      else
        match decode resp.body v with
        | (v1, derr) =>
          { st := { st with trace := st.trace ++
                [Ev.req (mkAuthedRequest method url body headers st.creds.accessToken),
                 Ev.resp resp, Ev.closeBody] },
            v := v1, resp := some resp, err := derr }

/-- authedDo (yelp.go lines 90-120): if the credential store reports the token
invalid, FetchToken first and propagate its failure without attempting the
request; otherwise proceed to build and execute the authed request. -/
def authedDo {α : Type} (env : Env) (st : St) (method url : String)
    (body : Option String) (headers : List (String × String))
    (decode : String → α → α × Option String) (v : α) : HttpOut α :=
  if credIsValid env.now st.creds then
    authedDoReq env st method url body headers decode v
  else
    match FetchToken env st with
    | (st1, some e) => { st := st1, v := v, resp := none, err := some e }
    | (st1, none) => authedDoReq env st1 method url body headers decode v

/-- Search (yelp.go lines 67-76): reject invalid options with a descriptive
error before any network activity; otherwise GET the search endpoint with the
encoded options as the query string through authedDo. -/
def Search (env : Env) (st : St) (so : SearchOptions) :
    St × SearchResults × Option String :=
  let respBody : SearchResults := default
  if !searchOptionsIsValid so then
    (st, respBody,
      some "SearchOptions provided is not valid. Please see yelp/search.go for more details.")
  else
    let urlStr := apiHost ++ searchPath ++ "?" ++ encodeValues (searchOptionsURLValues so)
    let out := authedDo env st "GET" urlStr none [] env.decodeSearch respBody
    (out.st, out.v, out.err)

/-- BusinessByID (yelp.go lines 79-85): GET the per-business endpoint with the
id substituted into the path through authedDo. -/
def BusinessByID (env : Env) (st : St) (businessID : String) :
    St × Business × Option String :=
  let respBody : Business := default
  let urlStr := apiHost ++ businessPathBase ++ businessID
  let out := authedDo env st "GET" urlStr none [] env.decodeBusiness respBody
  (out.st, out.v, out.err)

/-- The requests appearing in a trace, in order. -/
def requestsOf : List Ev → List Request
  | [] => []
  | Ev.req r :: es => r :: requestsOf es
  | Ev.resp _ :: es => requestsOf es
  | Ev.closeBody :: es => requestsOf es
  | Ev.log _ :: es => requestsOf es

/-- Whether an event is a received response (a body being opened). -/
def isRespEv : Ev → Bool
  | Ev.resp _ => true
  | _ => false

/-- Whether an event is a body close. -/
def isCloseEv : Ev → Bool
  | Ev.closeBody => true
  | _ => false

/-- Whether an event is a log line. -/
def isLogEv : Ev → Bool
  | Ev.log _ => true
  | _ => false

theorem requestsOf_append (a b : List Ev) :
    requestsOf (a ++ b) = requestsOf a ++ requestsOf b := by
  induction a with
  | nil => simp [requestsOf]
  | cons e es ih => cases e <;> simp [requestsOf, ih]

theorem postForm_creds {α : Type} (env : Env) (st : St) (url : String)
    (data : List (String × String)) (dec : String → α → α × Option String) (v : α) :
    (postForm env st url data dec v).st.creds = st.creds := by
  unfold postForm
  cases h : env.transport (formRequest url data) with
  | error e => rfl
  | ok resp =>
    cases hd : dec resp.body v with
    | mk v1 derr => cases hc : env.closeErr resp <;> simp [hd, hc]

theorem postForm_requests {α : Type} (env : Env) (st : St) (url : String)
    (data : List (String × String)) (dec : String → α → α × Option String) (v : α) :
    requestsOf (postForm env st url data dec v).st.trace =
      requestsOf st.trace ++ [formRequest url data] := by
  unfold postForm
  cases h : env.transport (formRequest url data) with
  | error e => simp [requestsOf_append, requestsOf]
  | ok resp =>
    cases hd : dec resp.body v with
    | mk v1 derr =>
      cases hc : env.closeErr resp <;> simp [hd, hc, requestsOf_append, requestsOf]

theorem postForm_transport_error {α : Type} (env : Env) (st : St) (url : String)
    (data : List (String × String)) (dec : String → α → α × Option String) (v : α)
    (e : String) (h : env.transport (formRequest url data) = Except.error e) :
    postForm env st url data dec v =
      { st := { st with trace := st.trace ++ [Ev.req (formRequest url data)] },
        v := v, resp := none, err := some e } := by
  unfold postForm
  rw [h]

theorem postForm_transport_ok {α : Type} (env : Env) (st : St) (url : String)
    (data : List (String × String)) (dec : String → α → α × Option String) (v : α)
    (resp : Response) (h : env.transport (formRequest url data) = Except.ok resp) :
    (postForm env st url data dec v).v = (dec resp.body v).1 ∧
    (postForm env st url data dec v).err = (dec resp.body v).2 := by
  unfold postForm
  rw [h]
  cases hd : dec resp.body v with
  | mk v1 derr => cases hc : env.closeErr resp <;> simp [hd, hc]

theorem fetchToken_creds_requests (env : Env) (st : St) :
    requestsOf (FetchToken env st).1.trace =
      requestsOf st.trace ++ [tokenRequest st.creds] := by
  have hp := postForm_requests env st (apiHost ++ tokenPath) (credURLValues st.creds)
    env.decodeToken { accessToken := "", tokenType := "", expiresIn := 0 }
  unfold FetchToken
  cases he : (postForm env st (apiHost ++ tokenPath) (credURLValues st.creds)
      env.decodeToken { accessToken := "", tokenType := "", expiresIn := 0 }).err with
  | none =>
    simp only [he]
    simpa [tokenRequest] using hp
  | some e =>
    simp only [he]
    simpa [tokenRequest] using hp

theorem fetchToken_error_creds (env : Env) (st : St) (e : String)
    (h : (FetchToken env st).2 = some e) :
    (FetchToken env st).1.creds = st.creds := by
  have hc := postForm_creds env st (apiHost ++ tokenPath) (credURLValues st.creds)
    env.decodeToken { accessToken := "", tokenType := "", expiresIn := 0 }
  unfold FetchToken at h ⊢
  cases he : (postForm env st (apiHost ++ tokenPath) (credURLValues st.creds)
      env.decodeToken { accessToken := "", tokenType := "", expiresIn := 0 }).err with
  | none => simp [he] at h
  | some e2 =>
    simp only [he]
    exact hc

theorem fetchToken_ok_creds (env : Env) (st : St) (resp : Response) (tok : TokenResp)
    (ht : env.transport (tokenRequest st.creds) = Except.ok resp)
    (hd : env.decodeToken resp.body { accessToken := "", tokenType := "", expiresIn := 0 } =
      (tok, none)) :
    (FetchToken env st).2 = none ∧
    (FetchToken env st).1.creds =
      { st.creds with
          accessToken := tok.accessToken,
          expiryDate := env.now + tok.expiresIn } := by
  rw [tokenRequest] at ht
  have hpf := postForm_transport_ok env st (apiHost ++ tokenPath) (credURLValues st.creds)
      env.decodeToken { accessToken := "", tokenType := "", expiresIn := 0 } resp ht
  rw [hd] at hpf
  have hcr := postForm_creds env st (apiHost ++ tokenPath) (credURLValues st.creds)
      env.decodeToken { accessToken := "", tokenType := "", expiresIn := 0 }
  unfold FetchToken
  dsimp only
  rw [hpf.2]
  dsimp only
  rw [hcr, hpf.1]
  exact ⟨rfl, rfl⟩

theorem authedDoReq_requests {α : Type} (env : Env) (st : St) (m u : String)
    (b : Option String) (hs : List (String × String))
    (dec : String → α → α × Option String) (v : α)
    (h : env.newReqErr m u = none) :
    requestsOf (authedDoReq env st m u b hs dec v).st.trace =
      requestsOf st.trace ++ [mkAuthedRequest m u b hs st.creds.accessToken] := by
  unfold authedDoReq
  rw [h]
  cases ht : env.transport (mkAuthedRequest m u b hs st.creds.accessToken) with
  | error e => simp [requestsOf_append, requestsOf]
  | ok resp =>
    by_cases h200 : resp.statusCode = 200
    · simp only [h200]
      cases hd : dec resp.body v with
      | mk v1 derr => simp [requestsOf_append, requestsOf]
    · simp [h200, requestsOf_append, requestsOf]

theorem authedDoReq_creds {α : Type} (env : Env) (st : St) (m u : String)
    (b : Option String) (hs : List (String × String))
    (dec : String → α → α × Option String) (v : α) :
    (authedDoReq env st m u b hs dec v).st.creds = st.creds := by
  unfold authedDoReq
  cases h : env.newReqErr m u with
  | some e => rfl
  | none =>
    cases ht : env.transport (mkAuthedRequest m u b hs st.creds.accessToken) with
    | error e => rfl
    | ok resp =>
      by_cases h200 : resp.statusCode = 200
      · simp only [h200]
        cases hd : dec resp.body v with
        | mk v1 derr => simp
      · simp [h200]

theorem authedDoReq_non200 {α : Type} (env : Env) (st : St) (m u : String)
    (b : Option String) (hs : List (String × String))
    (dec : String → α → α × Option String) (v : α) (resp : Response)
    (h : env.newReqErr m u = none)
    (ht : env.transport (mkAuthedRequest m u b hs st.creds.accessToken) = Except.ok resp)
    (h200 : resp.statusCode ≠ 200) :
    (authedDoReq env st m u b hs dec v).err =
      some ("Yelp request failed with status " ++ resp.status) ∧
    (authedDoReq env st m u b hs dec v).v = v := by
  unfold authedDoReq
  rw [h, ht]
  simp [h200]

theorem authedDoReq_200 {α : Type} (env : Env) (st : St) (m u : String)
    (b : Option String) (hs : List (String × String))
    (dec : String → α → α × Option String) (v : α) (resp : Response)
    (h : env.newReqErr m u = none)
    (ht : env.transport (mkAuthedRequest m u b hs st.creds.accessToken) = Except.ok resp)
    (h200 : resp.statusCode = 200) :
    (authedDoReq env st m u b hs dec v).v = (dec resp.body v).1 ∧
    (authedDoReq env st m u b hs dec v).err = (dec resp.body v).2 := by
  unfold authedDoReq
  rw [h, ht]
  cases hd : dec resp.body v with
  | mk v1 derr => simp [h200, hd]

theorem lookupHeader_filter_ne (hs : List (String × String)) (k : String) :
    List.find? (fun p => p.1 = k) (hs.filter (fun p => p.1 ≠ k)) = none := by
  induction hs with
  | nil => simp
  | cons p ps ih =>
    by_cases hp : p.1 = k
    · simp [List.filter, hp, ih]
    · simp [List.filter, hp, ih]

theorem lookupHeader_setHeader (hs : List (String × String)) (k v : String) :
    lookupHeader (setHeader hs k v) k = some v := by
  unfold lookupHeader setHeader
  rw [List.find?_append, lookupHeader_filter_ne hs k]
  simp

/-- A credential store holding a currently valid token, for concrete runs. -/
def sampleCreds : Credentials :=
  { clientID := "id", clientSecret := "sec", accessToken := "tok", expiryDate := 100 }

/-- A credential store with no token yet, for concrete runs. -/
def emptyCreds : Credentials :=
  { clientID := "id", clientSecret := "sec", accessToken := "", expiryDate := 0 }

/-- Initial state with a valid token and an empty trace. -/
def stValid : St := { creds := sampleCreds, trace := [] }

/-- Initial state with no token and an empty trace. -/
def stEmpty : St := { creds := emptyCreds, trace := [] }

/-- An empty JSON object body. -/
def jsonEmpty : String := "\x7b\x7d"

/-- A 200 response carrying an empty JSON object. -/
def okResponse : Response := { statusCode := 200, status := "200 OK", body := jsonEmpty }

/-- A 404 response with an empty body. -/
def resp404 : Response := { statusCode := 404, status := "404 Not Found", body := "" }

/-- A 404 response carrying an empty JSON object body. -/
def resp404json : Response := { statusCode := 404, status := "404 Not Found", body := jsonEmpty }

/-- World where every request succeeds with an empty JSON object and every
decode succeeds leaving the target unchanged (as the stdlib decoder does on
an empty object). -/
def envOK : Env :=
  { transport := fun _ => Except.ok okResponse,
    closeErr := fun _ => none,
    now := 0,
    newReqErr := fun _ _ => none,
    decodeToken := fun _ v => (v, none),
    decodeSearch := fun _ v => (v, none),
    decodeBusiness := fun _ v => (v, none) }

/-- World where every request fails at the transport. -/
def envErr : Env :=
  { transport := fun _ => Except.error "network down",
    closeErr := fun _ => none,
    now := 0,
    newReqErr := fun _ _ => none,
    decodeToken := fun _ v => (v, none),
    decodeSearch := fun _ v => (v, none),
    decodeBusiness := fun _ v => (v, none) }

/-- World where every request gets a 404 response. -/
def env404 : Env :=
  { transport := fun _ => Except.ok resp404,
    closeErr := fun _ => none,
    now := 0,
    newReqErr := fun _ _ => none,
    decodeToken := fun _ v => (v, none),
    decodeSearch := fun _ v => (v, none),
    decodeBusiness := fun _ v => (v, none) }

/-- World whose token endpoint succeeds and decodes to token T expiring in
3600 seconds. -/
def envTok : Env :=
  { transport := fun _ => Except.ok okResponse,
    closeErr := fun _ => none,
    now := 0,
    newReqErr := fun _ _ => none,
    decodeToken := fun _ _ =>
      ({ accessToken := "T", tokenType := "Bearer", expiresIn := 3600 }, none),
    decodeSearch := fun _ v => (v, none),
    decodeBusiness := fun _ v => (v, none) }

/-- Claim C3: for every SearchOptions whose IsValid is false, Search returns
the descriptive validation error immediately with the zero SearchResults and
a completely unchanged state: no network call and no token fetch. -/
theorem claim_C3_search_invalid_options (env : Env) (st : St) (so : SearchOptions)
    (h : searchOptionsIsValid so = false) :
    Search env st so =
      (st, default,
        some "SearchOptions provided is not valid. Please see yelp/search.go for more details.") := by
  unfold Search
  rw [h]
  rfl

/-- An option set lacking both a location and coordinates. -/
def soNoWhere : SearchOptions :=
  { term := "pizza", location := "", coordinates := none, limit := none }

/-- Witness for C3 at a concrete option set lacking location and coordinates. -/
theorem claim_C3_witness :
    searchOptionsIsValid soNoWhere = false ∧
    Search envOK stValid soNoWhere =
      (stValid, default,
        some "SearchOptions provided is not valid. Please see yelp/search.go for more details.") :=
  ⟨rfl, claim_C3_search_invalid_options envOK stValid soNoWhere rfl⟩

/-- Claim C6: a failing FetchToken returns the error and leaves the credential
store exactly as it was, access token and expiry included. -/
theorem claim_C6_fetchToken_failure_preserves_store (env : Env) (st : St) (e : String)
    (h : (FetchToken env st).2 = some e) :
    (FetchToken env st).1.creds = st.creds ∧
    (FetchToken env st).1.creds.accessToken = st.creds.accessToken ∧
    (FetchToken env st).1.creds.expiryDate = st.creds.expiryDate := by
  have hc := fetchToken_error_creds env st e h
  exact ⟨hc, by rw [hc], by rw [hc]⟩

/-- Witness for C6: a transport failure during the token fetch leaves the
store unchanged. -/
theorem claim_C6_witness :
    (FetchToken envErr stEmpty).2 = some "network down" ∧
    (FetchToken envErr stEmpty).1.creds = stEmpty.creds :=
  ⟨rfl, (claim_C6_fetchToken_failure_preserves_store envErr stEmpty "network down" rfl).1⟩

/-- Claim C2: a non-200 status makes authedDo return the wrapped status error
without decoding, leaving the target value unchanged; in particular a 404 from
the business lookup makes BusinessByID return the zero Business together with
an error whose text includes the status. -/
theorem claim_C2_non200_wraps_status :
    (∀ (α : Type) (env : Env) (st : St) (m u : String) (b : Option String)
        (hs : List (String × String)) (dec : String → α → α × Option String)
        (v : α) (resp : Response),
      credIsValid env.now st.creds = true →
      env.newReqErr m u = none →
      env.transport (mkAuthedRequest m u b hs st.creds.accessToken) = Except.ok resp →
      resp.statusCode ≠ 200 →
      (authedDo env st m u b hs dec v).err =
        some ("Yelp request failed with status " ++ resp.status) ∧
      (authedDo env st m u b hs dec v).v = v) ∧
    (∀ (env : Env) (st : St) (id : String) (resp : Response),
      credIsValid env.now st.creds = true →
      env.newReqErr "GET" (apiHost ++ businessPathBase ++ id) = none →
      env.transport (mkAuthedRequest "GET" (apiHost ++ businessPathBase ++ id) none []
          st.creds.accessToken) = Except.ok resp →
      resp.statusCode = 404 →
      (BusinessByID env st id).2.1 = (default : Business) ∧
      (BusinessByID env st id).2.2 =
        some ("Yelp request failed with status " ++ resp.status) ∧
      ∃ pre post, "Yelp request failed with status " ++ resp.status =
        pre ++ resp.status ++ post) ∧
    (∀ (α : Type) (env : Env) (st : St) (m u : String) (b : Option String)
        (hs : List (String × String)) (dec : String → α → α × Option String)
        (v : α) (resp : Response),
      env.newReqErr m u = none →
      env.transport (mkAuthedRequest m u b hs st.creds.accessToken) = Except.ok resp →
      resp.statusCode ≠ 200 →
      (authedDoReq env st m u b hs dec v).err =
        some ("Yelp request failed with status " ++ resp.status) ∧
      (authedDoReq env st m u b hs dec v).v = v) := by
  have main : ∀ (α : Type) (env : Env) (st : St) (m u : String) (b : Option String)
      (hs : List (String × String)) (dec : String → α → α × Option String)
      (v : α) (resp : Response),
      credIsValid env.now st.creds = true →
      env.newReqErr m u = none →
      env.transport (mkAuthedRequest m u b hs st.creds.accessToken) = Except.ok resp →
      resp.statusCode ≠ 200 →
      (authedDo env st m u b hs dec v).err =
        some ("Yelp request failed with status " ++ resp.status) ∧
      (authedDo env st m u b hs dec v).v = v := by
    intro α env st m u b hs dec v resp hval hreq ht h200
    have h1 := authedDoReq_non200 env st m u b hs dec v resp hreq ht h200
    unfold authedDo
    rw [hval]
    simpa using h1
  refine ⟨main, ?_, ?_⟩
  · intro env st id resp hval hreq ht h404
    have h1 := main Business env st "GET" (apiHost ++ businessPathBase ++ id) none []
      env.decodeBusiness default resp hval hreq ht (by rw [h404]; decide)
    unfold BusinessByID
    exact ⟨h1.2, h1.1, "Yelp request failed with status ", "", by simp⟩
  · intro α env st m u b hs dec v resp hreq ht h200
    exact authedDoReq_non200 env st m u b hs dec v resp hreq ht h200

/-- Witness for C2: a concrete 404 business lookup. -/
theorem claim_C2_witness :
    (BusinessByID env404 stValid "abc").2.1 = (default : Business) ∧
    (BusinessByID env404 stValid "abc").2.2 =
      some "Yelp request failed with status 404 Not Found" := by
  have h := claim_C2_non200_wraps_status.2.1 env404 stValid "abc" resp404 rfl rfl rfl (by decide)
  exact ⟨h.1, h.2.1⟩

/-- Claim C4: the request executed by authedDo carries an Authorization header
equal to Bearer followed by the stored access token, overwriting any
caller-supplied Authorization header. -/
theorem claim_C4_bearer_header (α : Type) (env : Env) (st : St) (m u : String)
    (b : Option String) (hs : List (String × String))
    (dec : String → α → α × Option String) (v : α)
    (hval : credIsValid env.now st.creds = true)
    (hreq : env.newReqErr m u = none) :
    requestsOf (authedDo env st m u b hs dec v).st.trace =
      requestsOf st.trace ++ [mkAuthedRequest m u b hs st.creds.accessToken] ∧
    (∀ (hs2 : List (String × String)) (tok : String),
      lookupHeader (mkAuthedRequest m u b hs2 tok).headers "Authorization" =
        some ("Bearer " ++ tok)) := by
  constructor
  · have h1 := authedDoReq_requests env st m u b hs dec v hreq
    unfold authedDo
    rw [hval]
    simpa using h1
  · intro hs2 tok
    unfold mkAuthedRequest
    exact lookupHeader_setHeader _ "Authorization" _

/-- Witness for C4: the Authorization header wins over a caller-supplied one. -/
theorem claim_C4_witness :
    lookupHeader (mkAuthedRequest "GET" "https://api.yelp.com/v3/businesses/abc" none
        [("Authorization", "Bearer old"), ("Accept", "application/json")] "tok").headers
      "Authorization" = some "Bearer tok" := by
  have h := claim_C4_bearer_header Business envOK stValid "GET"
    "https://api.yelp.com/v3/businesses/abc" none [] envOK.decodeBusiness default rfl rfl
  simpa using h.2 [("Authorization", "Bearer old"), ("Accept", "application/json")] "tok"

/-- Claim C5: a successful FetchToken stores the decoded access token and the
expiry now plus expires_in seconds; with token T and 3600 seconds the store is
valid one second later and invalid 3601 seconds later. -/
theorem claim_C5_fetchToken_success (env : Env) (st : St) (resp : Response)
    (tok : TokenResp)
    (ht : env.transport (tokenRequest st.creds) = Except.ok resp)
    (hd : env.decodeToken resp.body
      { accessToken := "", tokenType := "", expiresIn := 0 } = (tok, none)) :
    (FetchToken env st).2 = none ∧
    (FetchToken env st).1.creds.accessToken = tok.accessToken ∧
    (FetchToken env st).1.creds.expiryDate = env.now + tok.expiresIn ∧
    (tok.accessToken = "T" → tok.expiresIn = 3600 →
      credIsValid (env.now + 1) (FetchToken env st).1.creds = true ∧
      credIsValid (env.now + 3601) (FetchToken env st).1.creds = false) := by
  have h := fetchToken_ok_creds env st resp tok ht hd
  refine ⟨h.1, by rw [h.2], by rw [h.2], ?_⟩
  intro hT hE
  rw [h.2]
  constructor
  · have hlt : env.now + 1 < env.now + tok.expiresIn := by rw [hE]; omega
    simp [credIsValid, hT, hlt]
  · have hge : ¬ env.now + 3601 < env.now + tok.expiresIn := by rw [hE]; omega
    simp [credIsValid, hT, hge]

/-- Witness for C5: a concrete token exchange granting token T for 3600
seconds at time 0. -/
theorem claim_C5_witness :
    (FetchToken envTok stEmpty).2 = none ∧
    (FetchToken envTok stEmpty).1.creds.accessToken = "T" ∧
    credIsValid (envTok.now + 1) (FetchToken envTok stEmpty).1.creds = true ∧
    credIsValid (envTok.now + 3601) (FetchToken envTok stEmpty).1.creds = false := by
  have h := claim_C5_fetchToken_success envTok stEmpty okResponse
    { accessToken := "T", tokenType := "Bearer", expiresIn := 3600 } rfl rfl
  have h4 := h.2.2.2 rfl rfl
  exact ⟨h.1, h.2.1, h4.1, h4.2⟩

/-- Claim C1: when the credential store reports the token invalid, authedDo
performs exactly one token fetch before the actual request: on FetchToken
failure the fetch error is returned with no further request issued, and on
success exactly the token request and then the actual request (carrying the
refreshed token as Bearer) appear on the wire. -/
theorem claim_C1_token_refresh_first (α : Type) (env : Env) (st : St) (m u : String)
    (b : Option String) (hs : List (String × String))
    (dec : String → α → α × Option String) (v : α)
    (hinv : credIsValid env.now st.creds = false) :
    (∀ st1 e, FetchToken env st = (st1, some e) →
      authedDo env st m u b hs dec v =
        { st := st1, v := v, resp := none, err := some e } ∧
      requestsOf st1.trace = requestsOf st.trace ++ [tokenRequest st.creds]) ∧
    (∀ st1, FetchToken env st = (st1, none) →
      env.newReqErr m u = none →
      requestsOf (authedDo env st m u b hs dec v).st.trace =
        requestsOf st.trace ++
          [tokenRequest st.creds,
           mkAuthedRequest m u b hs st1.creds.accessToken] ∧
      lookupHeader (mkAuthedRequest m u b hs st1.creds.accessToken).headers
          "Authorization" = some ("Bearer " ++ st1.creds.accessToken)) := by
  constructor
  · intro st1 e hft
    have htr := fetchToken_creds_requests env st
    rw [hft] at htr
    constructor
    · unfold authedDo
      rw [hinv]
      simp only [Bool.false_eq_true, if_false, hft]
    · exact htr
  · intro st1 hft hreq
    have htr := fetchToken_creds_requests env st
    rw [hft] at htr
    constructor
    · unfold authedDo
      rw [hinv]
      simp only [Bool.false_eq_true, if_false, hft]
      rw [authedDoReq_requests env st1 m u b hs dec v hreq, htr]
      simp
    · unfold mkAuthedRequest
      exact lookupHeader_setHeader _ "Authorization" _

/-- Witness for C1: a failing fetch in a world with a dead transport, and a
successful fetch granting token T followed by the actual request. -/
theorem claim_C1_witness :
    (authedDo envErr stEmpty "GET" "https://api.yelp.com/v3/businesses/abc" none []
        envErr.decodeBusiness default).err = some "network down" ∧
    requestsOf (authedDo envTok stEmpty "GET" "https://api.yelp.com/v3/businesses/abc"
        none [] envTok.decodeBusiness (default : Business)).st.trace =
      [tokenRequest stEmpty.creds,
       mkAuthedRequest "GET" "https://api.yelp.com/v3/businesses/abc" none [] "T"] := by
  constructor
  · have h := (claim_C1_token_refresh_first Business envErr stEmpty "GET"
      "https://api.yelp.com/v3/businesses/abc" none [] envErr.decodeBusiness default rfl).1
      (FetchToken envErr stEmpty).1 "network down" rfl
    rw [h.1]
  · have h := (claim_C1_token_refresh_first Business envTok stEmpty "GET"
      "https://api.yelp.com/v3/businesses/abc" none [] envTok.decodeBusiness default rfl).2
      (FetchToken envTok stEmpty).1 rfl rfl
    rw [h.1]
    rfl

/-- Claim C9: the requests of the three operations target the fixed host and
the fixed endpoints: FetchToken posts the form-encoded credentials to the
token path, Search gets the search path with the encoded options as the query
string, BusinessByID gets the business path with the id appended; the authed
requests carry no body. -/
theorem claim_C9_request_targets :
    (∀ (env : Env) (st : St),
      requestsOf (FetchToken env st).1.trace =
        requestsOf st.trace ++ [tokenRequest st.creds]) ∧
    (∀ (c : Credentials), tokenRequest c =
      { method := "POST", url := apiHost ++ tokenPath,
        headers := [("Content-Type", "application/x-www-form-urlencoded")],
        body := some (encodeValues (credURLValues c)) }) ∧
    (∀ (env : Env) (st : St) (so : SearchOptions),
      searchOptionsIsValid so = true →
      credIsValid env.now st.creds = true →
      env.newReqErr "GET"
        (apiHost ++ searchPath ++ "?" ++ encodeValues (searchOptionsURLValues so)) = none →
      requestsOf (Search env st so).1.trace =
        requestsOf st.trace ++
          [mkAuthedRequest "GET"
            (apiHost ++ searchPath ++ "?" ++ encodeValues (searchOptionsURLValues so))
            none [] st.creds.accessToken]) ∧
    (∀ (env : Env) (st : St) (id : String),
      credIsValid env.now st.creds = true →
      env.newReqErr "GET" (apiHost ++ businessPathBase ++ id) = none →
      requestsOf (BusinessByID env st id).1.trace =
        requestsOf st.trace ++
          [mkAuthedRequest "GET" (apiHost ++ businessPathBase ++ id)
            none [] st.creds.accessToken]) ∧
    (∀ (m u : String) (b : Option String) (hs : List (String × String)) (tok : String),
      (mkAuthedRequest m u b hs tok).method = m ∧
      (mkAuthedRequest m u b hs tok).url = u ∧
      (mkAuthedRequest m u b hs tok).body = b) := by
  refine ⟨fetchToken_creds_requests, fun c => rfl, ?_, ?_, fun m u b hs tok => ⟨rfl, rfl, rfl⟩⟩
  · intro env st so hso hval hreq
    have h1 := authedDoReq_requests env st "GET"
      (apiHost ++ searchPath ++ "?" ++ encodeValues (searchOptionsURLValues so))
      none [] env.decodeSearch (default : SearchResults) hreq
    unfold Search
    rw [hso]
    unfold authedDo
    rw [hval]
    simpa using h1
  · intro env st id hval hreq
    have h1 := authedDoReq_requests env st "GET" (apiHost ++ businessPathBase ++ id)
      none [] env.decodeBusiness (default : Business) hreq
    unfold BusinessByID
    unfold authedDo
    rw [hval]
    simpa using h1

/-- An option set with a location, for concrete search runs. -/
def soHere : SearchOptions :=
  { term := "pizza", location := "SF", coordinates := none, limit := none }

/-- Witness for C9: concrete runs of the three operations. -/
theorem claim_C9_witness :
    requestsOf (FetchToken envOK stEmpty).1.trace = [tokenRequest stEmpty.creds] ∧
    requestsOf (Search envOK stValid soHere).1.trace =
      [mkAuthedRequest "GET"
        (apiHost ++ searchPath ++ "?" ++ encodeValues (searchOptionsURLValues soHere))
        none [] "tok"] ∧
    requestsOf (BusinessByID envOK stValid "abc").1.trace =
      [mkAuthedRequest "GET" (apiHost ++ businessPathBase ++ "abc") none [] "tok"] := by
  refine ⟨?_, ?_, ?_⟩
  · have h := claim_C9_request_targets.1 envOK stEmpty
    rw [h]
    rfl
  · have h := claim_C9_request_targets.2.2.1 envOK stValid soHere rfl rfl rfl
    rw [h]
    rfl
  · have h := claim_C9_request_targets.2.2.2.1 envOK stValid "abc" rfl rfl
    rw [h]
    rfl

/-- Claim C10: on a 200 response whose body fails to decode, Search and
BusinessByID return the decode error together with whatever value the decoder
produced from the zero starting value — possibly partially populated. -/
theorem claim_C10_decode_failure_partial :
    (∀ (env : Env) (st : St) (so : SearchOptions) (resp : Response)
        (part : SearchResults) (e : String),
      searchOptionsIsValid so = true →
      credIsValid env.now st.creds = true →
      env.newReqErr "GET"
        (apiHost ++ searchPath ++ "?" ++ encodeValues (searchOptionsURLValues so)) = none →
      env.transport (mkAuthedRequest "GET"
        (apiHost ++ searchPath ++ "?" ++ encodeValues (searchOptionsURLValues so))
        none [] st.creds.accessToken) = Except.ok resp →
      resp.statusCode = 200 →
      env.decodeSearch resp.body default = (part, some e) →
      (Search env st so).2 = (part, some e)) ∧
    (∀ (env : Env) (st : St) (id : String) (resp : Response)
        (part : Business) (e : String),
      credIsValid env.now st.creds = true →
      env.newReqErr "GET" (apiHost ++ businessPathBase ++ id) = none →
      env.transport (mkAuthedRequest "GET" (apiHost ++ businessPathBase ++ id)
        none [] st.creds.accessToken) = Except.ok resp →
      resp.statusCode = 200 →
      env.decodeBusiness resp.body default = (part, some e) →
      (BusinessByID env st id).2 = (part, some e)) := by
  constructor
  · intro env st so resp part e hso hval hreq ht h200 hd
    have h1 := authedDoReq_200 env st "GET"
      (apiHost ++ searchPath ++ "?" ++ encodeValues (searchOptionsURLValues so))
      none [] env.decodeSearch (default : SearchResults) resp hreq ht h200
    rw [hd] at h1
    unfold Search
    rw [hso]
    unfold authedDo
    rw [hval]
    exact Prod.ext h1.1 h1.2
  · intro env st id resp part e hval hreq ht h200 hd
    have h1 := authedDoReq_200 env st "GET" (apiHost ++ businessPathBase ++ id)
      none [] env.decodeBusiness (default : Business) resp hreq ht h200
    rw [hd] at h1
    unfold BusinessByID
    unfold authedDo
    rw [hval]
    exact Prod.ext h1.1 h1.2

/-- World where the authed endpoints answer 200 but the body only partially
decodes: the total count is read before the decoder fails. -/
def envPartial : Env :=
  { transport := fun _ => Except.ok okResponse,
    closeErr := fun _ => none,
    now := 0,
    newReqErr := fun _ _ => none,
    decodeToken := fun _ v => (v, none),
    decodeSearch := fun _ v => ({ v with total := 7 }, some "unexpected EOF"),
    decodeBusiness := fun _ v => ({ v with name := "half" }, some "unexpected EOF") }

/-- Witness for C10: a partially populated result escapes with the decode
error. -/
theorem claim_C10_witness :
    (Search envPartial stValid soHere).2 =
      ({ total := 7, businesses := [] }, some "unexpected EOF") ∧
    (BusinessByID envPartial stValid "abc").2 =
      ({ (default : Business) with name := "half" }, some "unexpected EOF") := by
  constructor
  · exact claim_C10_decode_failure_partial.1 envPartial stValid soHere okResponse
      { total := 7, businesses := [] } "unexpected EOF" rfl rfl rfl rfl rfl rfl
  · exact claim_C10_decode_failure_partial.2 envPartial stValid "abc" okResponse
      { (default : Business) with name := "half" } "unexpected EOF" rfl rfl rfl rfl rfl

/-- World whose token endpoint answers 404 carrying an empty JSON object
body, which the decoder accepts leaving the target at its zero value (as the
stdlib decoder does for an empty object). -/
def envTok404 : Env :=
  { transport := fun _ => Except.ok resp404json,
    closeErr := fun _ => none,
    now := 0,
    newReqErr := fun _ _ => none,
    decodeToken := fun body v =>
      if body = jsonEmpty then (v, none) else (v, some "invalid json"),
    decodeSearch := fun body v =>
      if body = jsonEmpty then (v, none) else (v, some "invalid json"),
    decodeBusiness := fun body v =>
      if body = jsonEmpty then (v, none) else (v, some "invalid json") }

/-- Counterexample to C7 as stated: the token exchange does not treat a
non-200 status as a protocol error — with the token endpoint answering 404
and a body the decoder accepts, FetchToken reports success. -/
theorem claim_C7_counterexample :
    envTok404.transport (tokenRequest stEmpty.creds) = Except.ok resp404json ∧
    resp404json.statusCode ≠ 200 ∧
    (FetchToken envTok404 stEmpty).2 = none :=
  ⟨rfl, by decide, rfl⟩

/-- Claim C7 amended: the non-200 wrapping with the status text and the
undecoded body hold for the authenticated requests executed by authedDo; the
token exchange performed by FetchToken through postForm makes no status
check — its outcome is the transport or decode result whatever the status. -/
theorem claim_C7_non200_scope :
    (∀ (α : Type) (env : Env) (st : St) (m u : String) (b : Option String)
        (hs : List (String × String)) (dec : String → α → α × Option String)
        (v : α) (resp : Response),
      env.newReqErr m u = none →
      env.transport (mkAuthedRequest m u b hs st.creds.accessToken) = Except.ok resp →
      resp.statusCode ≠ 200 →
      (authedDoReq env st m u b hs dec v).err =
        some ("Yelp request failed with status " ++ resp.status) ∧
      (authedDoReq env st m u b hs dec v).v = v) ∧
    (∀ (env : Env) (st : St) (resp : Response),
      env.transport (tokenRequest st.creds) = Except.ok resp →
      (FetchToken env st).2 =
        (env.decodeToken resp.body
          { accessToken := "", tokenType := "", expiresIn := 0 }).2) := by
  constructor
  · intro α env st m u b hs dec v resp hreq ht h200
    exact authedDoReq_non200 env st m u b hs dec v resp hreq ht h200
  · intro env st resp ht
    rw [tokenRequest] at ht
    have hpf := postForm_transport_ok env st (apiHost ++ tokenPath) (credURLValues st.creds)
      env.decodeToken { accessToken := "", tokenType := "", expiresIn := 0 } resp ht
    unfold FetchToken
    dsimp only
    rw [hpf.2]
    cases hd : (env.decodeToken resp.body
        { accessToken := "", tokenType := "", expiresIn := 0 }).2 with
    | none => simp
    | some e => simp

/-- Witness for C7 amended: a 404 on an authed request is wrapped, while the
404 on the token exchange is invisible in the FetchToken outcome. -/
theorem claim_C7_witness :
    (authedDoReq env404 stValid "GET" (apiHost ++ businessPathBase ++ "abc") none []
        env404.decodeBusiness (default : Business)).err =
      some "Yelp request failed with status 404 Not Found" ∧
    (FetchToken envTok404 stEmpty).2 = none := by
  constructor
  · have h := claim_C7_non200_scope.1 Business env404 stValid "GET"
      (apiHost ++ businessPathBase ++ "abc") none [] env404.decodeBusiness default
      resp404 rfl rfl (by decide)
    rw [h.1]
    rfl
  · have h := claim_C7_non200_scope.2 envTok404 stEmpty resp404json rfl
    rw [h]
    rfl

theorem postForm_trace_delta {α : Type} (env : Env) (st : St) (url : String)
    (data : List (String × String)) (dec : String → α → α × Option String) (v : α) :
    ∃ d, (postForm env st url data dec v).st.trace = st.trace ++ d ∧
      d.countP isRespEv = d.countP isCloseEv := by
  unfold postForm
  cases ht : env.transport (formRequest url data) with
  | error e => exact ⟨[Ev.req (formRequest url data)], rfl, rfl⟩
  | ok resp =>
    cases hd : dec resp.body v with
    | mk v1 derr =>
      cases hc : env.closeErr resp with
      | some ce =>
        refine ⟨[Ev.req (formRequest url data), Ev.resp resp, Ev.closeBody, Ev.log ce],
          ?_, rfl⟩
        simp [hd, hc]
      | none =>
        refine ⟨[Ev.req (formRequest url data), Ev.resp resp, Ev.closeBody], ?_, rfl⟩
        simp [hd, hc]

theorem authedDoReq_trace_delta {α : Type} (env : Env) (st : St) (m u : String)
    (b : Option String) (hs : List (String × String))
    (dec : String → α → α × Option String) (v : α) :
    ∃ d, (authedDoReq env st m u b hs dec v).st.trace = st.trace ++ d ∧
      d.countP isRespEv = d.countP isCloseEv := by
  unfold authedDoReq
  cases hn : env.newReqErr m u with
  | some e => exact ⟨[], by simp, rfl⟩
  | none =>
    cases ht : env.transport (mkAuthedRequest m u b hs st.creds.accessToken) with
    | error e => exact ⟨[Ev.req (mkAuthedRequest m u b hs st.creds.accessToken)], rfl, rfl⟩
    | ok resp =>
      by_cases h200 : resp.statusCode = 200
      · cases hd : dec resp.body v with
        | mk v1 derr =>
          refine ⟨[Ev.req (mkAuthedRequest m u b hs st.creds.accessToken),
            Ev.resp resp, Ev.closeBody], ?_, rfl⟩
          simp [h200, hd]
      · refine ⟨[Ev.req (mkAuthedRequest m u b hs st.creds.accessToken),
          Ev.resp resp, Ev.closeBody], ?_, rfl⟩
        simp [h200]

theorem fetchToken_trace (env : Env) (st : St) :
    (FetchToken env st).1.trace =
      (postForm env st (apiHost ++ tokenPath) (credURLValues st.creds) env.decodeToken
        { accessToken := "", tokenType := "", expiresIn := 0 }).st.trace := by
  unfold FetchToken
  dsimp only
  cases he : (postForm env st (apiHost ++ tokenPath) (credURLValues st.creds)
      env.decodeToken { accessToken := "", tokenType := "", expiresIn := 0 }).err with
  | some e => rfl
  | none => rfl

theorem fetchToken_trace_delta (env : Env) (st : St) :
    ∃ d, (FetchToken env st).1.trace = st.trace ++ d ∧
      d.countP isRespEv = d.countP isCloseEv := by
  obtain ⟨d, hd, hcnt⟩ := postForm_trace_delta env st (apiHost ++ tokenPath)
    (credURLValues st.creds) env.decodeToken
    { accessToken := "", tokenType := "", expiresIn := 0 }
  exact ⟨d, by rw [fetchToken_trace, hd], hcnt⟩

theorem postForm_closeErr_out {α : Type} (env : Env) (ce : Response → Option String)
    (st : St) (url : String) (data : List (String × String))
    (dec : String → α → α × Option String) (v : α) :
    (postForm { env with closeErr := ce } st url data dec v).err =
      (postForm env st url data dec v).err ∧
    (postForm { env with closeErr := ce } st url data dec v).v =
      (postForm env st url data dec v).v := by
  unfold postForm
  dsimp only
  cases ht : env.transport (formRequest url data) with
  | error e => exact ⟨rfl, rfl⟩
  | ok resp =>
    cases hd : dec resp.body v with
    | mk v1 derr => exact ⟨rfl, rfl⟩

theorem fetchToken_closeErr_out (env : Env) (ce : Response → Option String) (st : St) :
    (FetchToken { env with closeErr := ce } st).2 = (FetchToken env st).2 ∧
    (FetchToken { env with closeErr := ce } st).1.creds =
      (FetchToken env st).1.creds := by
  have hp := postForm_closeErr_out env ce st (apiHost ++ tokenPath)
    (credURLValues st.creds) env.decodeToken
    { accessToken := "", tokenType := "", expiresIn := 0 }
  have hc1 := postForm_creds env st (apiHost ++ tokenPath) (credURLValues st.creds)
    env.decodeToken { accessToken := "", tokenType := "", expiresIn := 0 }
  have hc2 := postForm_creds { env with closeErr := ce } st (apiHost ++ tokenPath)
    (credURLValues st.creds) env.decodeToken
    { accessToken := "", tokenType := "", expiresIn := 0 }
  unfold FetchToken
  dsimp only
  rw [hp.1, hp.2]
  cases he : (postForm env st (apiHost ++ tokenPath) (credURLValues st.creds)
      env.decodeToken { accessToken := "", tokenType := "", expiresIn := 0 }).err with
  | some e => simp [hc1, hc2]
  | none => simp [hc1, hc2]

theorem authedDoReq_closeErr_out {α : Type} (env : Env) (ce : Response → Option String)
    (st1 st2 : St) (m u : String) (b : Option String) (hs : List (String × String))
    (dec : String → α → α × Option String) (v : α) (hcreds : st1.creds = st2.creds) :
    (authedDoReq { env with closeErr := ce } st1 m u b hs dec v).err =
      (authedDoReq env st2 m u b hs dec v).err ∧
    (authedDoReq { env with closeErr := ce } st1 m u b hs dec v).v =
      (authedDoReq env st2 m u b hs dec v).v := by
  unfold authedDoReq
  dsimp only
  rw [hcreds]
  cases hn : env.newReqErr m u with
  | some e => exact ⟨rfl, rfl⟩
  | none =>
    cases ht : env.transport (mkAuthedRequest m u b hs st2.creds.accessToken) with
    | error e => exact ⟨rfl, rfl⟩
    | ok resp =>
      by_cases h200 : resp.statusCode = 200
      · cases hd : dec resp.body v with
        | mk v1 derr => simp [h200, hd]
      · simp [h200]

theorem postForm_logs_close_failure {α : Type} (env : Env) (st : St) (url : String)
    (data : List (String × String)) (dec : String → α → α × Option String) (v : α)
    (resp : Response) (ce : String)
    (ht : env.transport (formRequest url data) = Except.ok resp)
    (hc : env.closeErr resp = some ce) :
    Ev.log ce ∈ (postForm env st url data dec v).st.trace := by
  unfold postForm
  rw [ht]
  cases hd : dec resp.body v with
  | mk v1 derr => simp [hd, hc]

/-- World where every close of a response body fails. -/
def envCloseFail : Env :=
  { transport := fun _ => Except.ok okResponse,
    closeErr := fun _ => some "close failed",
    now := 0,
    newReqErr := fun _ _ => none,
    decodeToken := fun _ v => (v, none),
    decodeSearch := fun _ v => (v, none),
    decodeBusiness := fun _ v => (v, none) }

/-- Counterexample to C8 as stated: on the authedDo path a close failure is
suppressed but never logged — the run below closes one body whose close
fails, logs nothing, and still returns success. -/
theorem claim_C8_counterexample :
    envCloseFail.closeErr okResponse = some "close failed" ∧
    ((BusinessByID envCloseFail stValid "abc").1.trace.countP isCloseEv = 1 ∧
      (BusinessByID envCloseFail stValid "abc").1.trace.countP isRespEv = 1) ∧
    (BusinessByID envCloseFail stValid "abc").1.trace.countP isLogEv = 0 ∧
    (BusinessByID envCloseFail stValid "abc").2.2 = none :=
  ⟨rfl, ⟨rfl, rfl⟩, rfl, rfl⟩

/-- Claim C8 amended: on every path every received response has its body
closed before return (responses and closes balance in the emitted trace), and
a close failure never changes the outcome; but only postForm logs the close
failure — authedDo discards it without logging. -/
theorem claim_C8_body_lifecycle :
    (∀ (α : Type) (env : Env) (st : St) (m u : String) (b : Option String)
        (hs : List (String × String)) (dec : String → α → α × Option String) (v : α),
      ∃ d, (authedDo env st m u b hs dec v).st.trace = st.trace ++ d ∧
        d.countP isRespEv = d.countP isCloseEv) ∧
    (∀ (env : Env) (st : St),
      ∃ d, (FetchToken env st).1.trace = st.trace ++ d ∧
        d.countP isRespEv = d.countP isCloseEv) ∧
    (∀ (α : Type) (env : Env) (ce : Response → Option String) (st : St)
        (m u : String) (b : Option String) (hs : List (String × String))
        (dec : String → α → α × Option String) (v : α),
      (authedDo { env with closeErr := ce } st m u b hs dec v).err =
        (authedDo env st m u b hs dec v).err ∧
      (authedDo { env with closeErr := ce } st m u b hs dec v).v =
        (authedDo env st m u b hs dec v).v) ∧
    (∀ (α : Type) (env : Env) (st : St) (url : String)
        (data : List (String × String)) (dec : String → α → α × Option String)
        (v : α) (resp : Response) (ce : String),
      env.transport (formRequest url data) = Except.ok resp →
      env.closeErr resp = some ce →
      Ev.log ce ∈ (postForm env st url data dec v).st.trace) := by
  refine ⟨?_, fetchToken_trace_delta, ?_, ?_⟩
  · intro α env st m u b hs dec v
    unfold authedDo
    by_cases hval : credIsValid env.now st.creds
    · simp only [hval, if_true]
      exact authedDoReq_trace_delta env st m u b hs dec v
    · simp only [Bool.not_eq_true] at hval
      simp only [hval, Bool.false_eq_true, if_false]
      obtain ⟨d1, hd1, hcnt1⟩ := fetchToken_trace_delta env st
      cases hft : FetchToken env st with
      | mk st1 oe =>
        rw [hft] at hd1
        cases oe with
        | some e => exact ⟨d1, hd1, hcnt1⟩
        | none =>
          obtain ⟨d2, hd2, hcnt2⟩ := authedDoReq_trace_delta env st1 m u b hs dec v
          refine ⟨d1 ++ d2, ?_, ?_⟩
          · rw [hd2, hd1, List.append_assoc]
          · rw [List.countP_append, List.countP_append, hcnt1, hcnt2]
  · intro α env ce st m u b hs dec v
    unfold authedDo
    dsimp only
    by_cases hval : credIsValid env.now st.creds
    · simp only [hval, if_true]
      exact authedDoReq_closeErr_out env ce st st m u b hs dec v rfl
    · simp only [Bool.not_eq_true] at hval
      simp only [hval, Bool.false_eq_true, if_false]
      have hf := fetchToken_closeErr_out env ce st
      cases hft : FetchToken env st with
      | mk st1 oe =>
        cases hft' : FetchToken { env with closeErr := ce } st with
        | mk st1' oe' =>
          rw [hft, hft'] at hf
          cases oe with
          | some e =>
            have : oe' = some e := hf.1
            subst this
            exact ⟨rfl, rfl⟩
          | none =>
            have : oe' = none := hf.1
            subst this
            exact authedDoReq_closeErr_out env ce st1' st1 m u b hs dec v hf.2
  · intro α env st url data dec v resp ce ht hc
    exact postForm_logs_close_failure env st url data dec v resp ce ht hc

/-- Witness for C8 amended: a concrete token-fetch run that logs the close
failure. -/
theorem claim_C8_witness :
    Ev.log "close failed" ∈ (postForm envCloseFail stEmpty (apiHost ++ tokenPath)
      (credURLValues stEmpty.creds) envCloseFail.decodeToken
      (default : TokenResp)).st.trace :=
  claim_C8_body_lifecycle.2.2.2 TokenResp envCloseFail stEmpty (apiHost ++ tokenPath)
    (credURLValues stEmpty.creds) envCloseFail.decodeToken default okResponse
    "close failed" rfl rfl

end Yelp
